import Mathlib

/-!
Verification of the Red Hat patch-status reporting pipeline
(`patch_system_status.py` and `redhat_patch_api.py`).

The network and JSON layers are embedded shallowly:
* an HTTP interaction is a value of `FetchOutcome` (a transport error, or a
  response with a status code and an optional parsed `data` field);
* `raise_for_status` raises exactly for status codes 400–599;
* Python truthiness of the held token (`not self.access_token`) is `tokenFalsy`;
* Python `dict` / `defaultdict(list)` are association lists with the
  corresponding insert-or-replace / append-to-group operations.
-/

/-- An advisory entry as extracted by `redhat_patch_api.get_system_advisories`
(lines 84–91): an `id` and a `synopsis`, both defaulted when absent. -/
structure AdvisoryRecord where
  id : String
  synopsis : String
deriving Repr, DecidableEq

/-- A raw advisory entry of the `data` array returned by the advisory endpoint,
as consumed (uninspected, only counted) by `patch_system_status.py`.  The
aggregation never looks inside these objects, so they are modelled opaquely. -/
abbrev RawAdvisory : Type := String

/-- The nested `attributes` object of an inventory entry; either field may be
absent (`attributes.get('display_name', ...)`, `attributes.get('os', ...)`). -/
structure RawAttributes where
  display_name : Option String
  os : Option String
deriving Repr, DecidableEq

/-- A raw inventory entry of the `data` array returned by the systems endpoint:
`system.get('id', ...)` and `system.get('attributes', {})`. -/
structure RawSystem where
  id : Option String
  attributes : Option RawAttributes
deriving Repr, DecidableEq

/-- The `{}` default used by `system.get('attributes', {})`. -/
def emptyAttributes : RawAttributes := { display_name := none, os := none }

/-- Outcome of one HTTP request: a `requests` transport exception, or a
response carrying a status code and the optional `data` field of its JSON
body (`none` models a body lacking the key, defaulted by `.get('data', [])`). -/
inductive FetchOutcome (α : Type) where
  | transportError (msg : String)
  | response (status : Nat) (data : Option α)
deriving Repr, DecidableEq

/-- `response.raise_for_status()` raises `HTTPError` exactly for 4xx/5xx. -/
def isErrorStatus (status : Nat) : Bool :=
  decide (400 ≤ status) && decide (status < 600)

/-- A fetch is a failure when the transport raised or the status is 4xx/5xx;
both are caught by the `except requests.exceptions.RequestException` arms. -/
def isFetchFailure {α : Type} : FetchOutcome α → Bool
  | .transportError _ => true
  | .response status _ => isErrorStatus status

/-- The mutable state of a `RedHatPatchAPI` instance that the claims concern:
`self.access_token`, `None` until the first successful refresh. -/
structure ApiState where
  access_token : Option String
deriving Repr, DecidableEq

/-- Python truthiness of the token guard `if not self.access_token:` —
true for `None` and for the empty string. -/
def tokenFalsy : Option String → Bool
  | none => true
  | some t => t = ""

/-- Outcome of the token-endpoint POST: transport error, or a response with a
status code and the optional `access_token` field of its JSON body. -/
inductive TokenOutcome where
  | transportError (msg : String)
  | response (status : Nat) (access_token : Option String)
deriving Repr, DecidableEq

/-- `RedHatPatchAPI.get_oauth_token`: on a caught `RequestException`
(transport error, or 4xx/5xx via `raise_for_status`) prints and returns
`None`, leaving `self.access_token` as it was; otherwise executes
`self.access_token = token_data.get('access_token')` and returns the new
value (which is `None` when the body lacks the field).  Returns the pair
(returned value, state after the call). -/
def get_oauth_token (st : ApiState) (outcome : TokenOutcome) :
    Option String × ApiState :=
  match outcome with
  | .transportError _ => (none, st)
  | .response status tok =>
    if isErrorStatus status then (none, st)
    else (tok, { access_token := tok })

/-- The fixed systems collection endpoint. -/
def patch_api_url : String := "https://console.redhat.com/api/patch/v3/systems"

/-- The per-system advisory endpoint, parameterized by inventory id. -/
def advisoriesUrl (inventory_id : String) : String :=
  "https://console.redhat.com/api/patch/v3/systems/" ++ inventory_id ++ "/advisories"

/-- `RedHatPatchAPI.get_patch_systems`: with a falsy token, prints and returns
`[]` without issuing any request; otherwise issues one GET against
`patch_api_url` and returns `data.get('data', [])`, or `[]` on a caught
`RequestException`.  The second component is the list of URLs requested. -/
def get_patch_systems (st : ApiState)
    (transport : String → FetchOutcome (List RawSystem)) :
    List RawSystem × List String :=
  if tokenFalsy st.access_token then ([], [])
  else
    (match transport patch_api_url with
      | .transportError _ => []
      | .response status data =>
        if isErrorStatus status then [] else data.getD [],
     [patch_api_url])

/-- `RedHatPatchAPI.get_system_advisories` (patch_system_status.py, lines
70–93): with a falsy token, prints and returns `[]` without issuing any
request; otherwise issues one GET against `advisoriesUrl inventory_id` and
returns `data.get('data', [])`, or `[]` on a caught `RequestException`.
The second component is the list of URLs requested. -/
def get_system_advisories (st : ApiState)
    (transport : String → FetchOutcome (List RawAdvisory))
    (inventory_id : String) : List RawAdvisory × List String :=
  if tokenFalsy st.access_token then ([], [])
  else
    (match transport (advisoriesUrl inventory_id) with
      | .transportError _ => []
      | .response status data =>
        if isErrorStatus status then [] else data.getD [],
     [advisoriesUrl inventory_id])

/-- The per-system record built by `get_system_status_data`
(lines 149–155): `system_id`, `display_name`, `os_version`,
`has_installable_advisories`, `advisory_count`. -/
structure SystemRecord where
  system_id : String
  display_name : String
  os_version : String
  has_installable_advisories : Bool
  advisory_count : Nat
deriving Repr, DecidableEq

/-- The loop body of `get_system_status_data` for one inventory entry
(lines 138–155): apply the `.get` defaults, fetch the advisories for
`system_id`, and build the record with `advisory_count = len(advisories)`
and `has_installable_advisories = len(advisories) > 0`. -/
def recordOf (st : ApiState)
    (transport : String → FetchOutcome (List RawAdvisory))
    (system : RawSystem) : SystemRecord :=
  let attributes := system.attributes.getD emptyAttributes
  let display_name := attributes.display_name.getD "Unknown"
  let system_id := system.id.getD "No ID"
  let os_version := attributes.os.getD "Unknown OS"
  let advisories := (get_system_advisories st transport system_id).1
  { system_id := system_id
    display_name := display_name
    os_version := os_version
    has_installable_advisories := decide (advisories.length > 0)
    advisory_count := advisories.length }

/-- `os_groups[os_version].append(system_data)` on a `defaultdict(list)`:
append to the existing group with that key, else add a new singleton group
at the end (dict insertion order). -/
def appendToGroup (groups : List (String × List SystemRecord))
    (key : String) (r : SystemRecord) : List (String × List SystemRecord) :=
  match groups with
  | [] => [(key, [r])]
  | (k, rs) :: rest =>
    if k = key then (k, rs ++ [r]) :: rest
    else (k, rs) :: appendToGroup rest key r

/-- The grouping loop of `get_system_status_data` (lines 134–159): fold over
the inventory entries, appending each entry's record to the group keyed by
its `os_version`.  The configuration / token-refresh / inventory-fetch
prologue (lines 113–132) is handled by the caller: `systems` is the list
returned by `get_patch_systems`, and for an empty list the result is the
empty mapping, matching the `return {}` short-circuit. -/
def get_system_status_data (st : ApiState)
    (transport : String → FetchOutcome (List RawAdvisory))
    (systems : List RawSystem) : List (String × List SystemRecord) :=
  systems.foldl
    (fun groups system =>
      appendToGroup groups (recordOf st transport system).os_version
        (recordOf st transport system))
    []

/-- `total_systems = sum(len(systems) for systems in os_groups_data.values())`
(line 199). -/
def total_systems (d : List (String × List SystemRecord)) : Nat :=
  (d.map fun p => p.2.length).sum

/-- `total_with_advisories` (lines 200–203): systems whose
`has_installable_advisories` is set, summed over all groups. -/
def total_with_advisories (d : List (String × List SystemRecord)) : Nat :=
  (d.map fun p => p.2.countP fun s => s.has_installable_advisories).sum

/-- `overall_percentage = (total_with_advisories / total_systems * 100) if
total_systems > 0 else 0` (line 204), at exact rational precision. -/
def overall_percentage (d : List (String × List SystemRecord)) : ℚ :=
  if total_systems d > 0 then
    (total_with_advisories d : ℚ) / (total_systems d : ℚ) * 100
  else 0

/-- `with_advisories` for one group (line 220). -/
def group_with_advisories (systems : List SystemRecord) : Nat :=
  systems.countP fun s => s.has_installable_advisories

/-- `percentage = (with_advisories / total_in_group * 100) if total_in_group
> 0 else 0` (line 221), at exact rational precision. -/
def group_percentage (systems : List SystemRecord) : ℚ :=
  if systems.length > 0 then
    (group_with_advisories systems : ℚ) / (systems.length : ℚ) * 100
  else 0

/-- The `Status` cell of a PDF table row (line 232). -/
def statusText (system : SystemRecord) : String :=
  if system.has_installable_advisories then "Has Advisories" else "No Advisories"

/-- One data row of the per-group PDF table (lines 233–238): display name,
the system id truncated to 20 characters plus `'...'` when longer than 20,
the advisory count, and the status text. -/
def pdfTableRow (system : SystemRecord) : List String :=
  [system.display_name,
   if system.system_id.length > 20 then system.system_id.take 20 ++ "..."
   else system.system_id,
   toString system.advisory_count,
   statusText system]

/-- The ID-column cell as claim C9 describes it: the system NAME truncated to
its first 20 characters with an ellipsis appended when longer.  Stated from
the claim's words, for comparison with the code's `pdfTableRow`. -/
def claimIdCell (system : SystemRecord) : String :=
  if system.display_name.length > 20 then system.display_name.take 20 ++ "..."
  else system.display_name

/-- One element of `systems_with_advisories` as built by
`redhat_patch_api.main` (lines 146–151): id, display name, and the extracted
advisory list. -/
structure SystemData where
  system_id : String
  display_name : String
  advisories : List AdvisoryRecord
deriving Repr, DecidableEq

/-- One advisory object of the JSON report (lines 203–206):
`advisory_id` and `synopsis`. -/
structure JsonAdvisoryEntry where
  advisory_id : String
  synopsis : String
deriving Repr, DecidableEq

/-- One per-system value of the JSON report (lines 209–213):
`system_id`, `advisory_count`, `advisories`. -/
structure JsonSystemEntry where
  system_id : String
  advisory_count : Nat
  advisories : List JsonAdvisoryEntry
deriving Repr, DecidableEq

/-- Python `dict` assignment `d[k] = v`: replace the value in place if the
key exists (keeping its position), else append the new pair at the end. -/
def dictInsert (d : List (String × JsonSystemEntry)) (k : String)
    (v : JsonSystemEntry) : List (String × JsonSystemEntry) :=
  match d with
  | [] => [(k, v)]
  | (k', v') :: rest =>
    if k' = k then (k, v) :: rest else (k', v') :: dictInsert rest k v

/-- Python `dict` lookup on the modelled dictionary. -/
def dictFind (d : List (String × JsonSystemEntry)) (k : String) :
    Option JsonSystemEntry :=
  (d.find? fun p => p.1 = k).map fun p => p.2

/-- The loop body of `generate_json_report` for one system (lines 198–213):
rebuild the advisory list as `{advisory_id, synopsis}` objects and store
`advisory_count = len(advisories_list)` alongside it. -/
def jsonEntryOf (system : SystemData) : JsonSystemEntry :=
  let advisories_list :=
    system.advisories.map fun a =>
      { advisory_id := a.id, synopsis := a.synopsis : JsonAdvisoryEntry }
  { system_id := system.system_id
    advisory_count := advisories_list.length
    advisories := advisories_list }

/-- `generate_json_report` (lines 196–213): build `json_report`, a dict keyed
by each system's `display_name`, assigning each system's entry in input
order (so a later duplicate display name overwrites an earlier one). -/
def generate_json_report (systems_data : List SystemData) :
    List (String × JsonSystemEntry) :=
  systems_data.foldl
    (fun json_report system =>
      dictInsert json_report system.display_name (jsonEntryOf system))
    []

/-! ### Helper lemmas about the grouping fold -/

/-- A record occurs somewhere in the grouped mapping. -/
def recMem (r : SystemRecord) (d : List (String × List SystemRecord)) : Prop :=
  ∃ p ∈ d, r ∈ p.2

instance (r : SystemRecord) (d : List (String × List SystemRecord)) :
    Decidable (recMem r d) :=
  List.decidableBEx _ d

/-- Total number of records over all groups. -/
def sumLengths (d : List (String × List SystemRecord)) : Nat :=
  (d.map fun p => p.2.length).sum

theorem sumLengths_appendToGroup (d : List (String × List SystemRecord))
    (key : String) (r : SystemRecord) :
    sumLengths (appendToGroup d key r) = sumLengths d + 1 := by
  induction d with
  | nil => simp [appendToGroup, sumLengths]
  | cons p rest ih =>
    obtain ⟨k, rs⟩ := p
    by_cases h : k = key
    · simp [appendToGroup, h, sumLengths]
      omega
    · simp [appendToGroup, h, sumLengths] at ih ⊢
      omega

theorem recMem_appendToGroup (d : List (String × List SystemRecord))
    (key : String) (rec r : SystemRecord) :
    recMem r (appendToGroup d key rec) ↔ recMem r d ∨ r = rec := by
  induction d with
  | nil => simp [appendToGroup, recMem]
  | cons p rest ih =>
    obtain ⟨k, rs⟩ := p
    by_cases h : k = key
    · subst h
      simp only [appendToGroup, if_pos rfl, recMem]
      constructor
      · rintro ⟨q, hq, hr⟩
        rcases List.mem_cons.mp hq with hq | hq
        · subst hq
          rcases List.mem_append.mp hr with hr | hr
          · exact Or.inl ⟨(k, rs), List.mem_cons_self _ _, hr⟩
          · exact Or.inr (List.mem_singleton.mp hr)
        · exact Or.inl ⟨q, List.mem_cons_of_mem _ hq, hr⟩
      · rintro (⟨q, hq, hr⟩ | hr)
        · rcases List.mem_cons.mp hq with hq | hq
          · subst hq
            exact ⟨(k, rs ++ [rec]), List.mem_cons_self _ _,
              List.mem_append.mpr (Or.inl hr)⟩
          · exact ⟨q, List.mem_cons_of_mem _ hq, hr⟩
        · subst hr
          exact ⟨(k, rs ++ [r]), List.mem_cons_self _ _,
            List.mem_append.mpr (Or.inr (List.mem_singleton.mpr rfl))⟩
    · simp only [appendToGroup, if_neg h, recMem] at ih ⊢
      constructor
      · rintro ⟨q, hq, hr⟩
        rcases List.mem_cons.mp hq with hq | hq
        · exact Or.inl ⟨q, hq ▸ List.mem_cons_self _ _, hr⟩
        · rcases ih.mp ⟨q, hq, hr⟩ with h' | h'
          · obtain ⟨q', hq', hr'⟩ := h'
            exact Or.inl ⟨q', List.mem_cons_of_mem _ hq', hr'⟩
          · exact Or.inr h'
      · rintro (⟨q, hq, hr⟩ | hr)
        · rcases List.mem_cons.mp hq with hq | hq
          · exact ⟨q, hq ▸ List.mem_cons_self _ _, hr⟩
          · obtain ⟨q', hq', hr'⟩ := ih.mpr (Or.inl ⟨q, hq, hr⟩)
            exact ⟨q', List.mem_cons_of_mem _ hq', hr'⟩
        · obtain ⟨q', hq', hr'⟩ := ih.mpr (Or.inr hr)
          exact ⟨q', List.mem_cons_of_mem _ hq', hr'⟩

/-- Every key–record pair of `appendToGroup d key rec` satisfies `P` when all
pairs of `d` do and `P key rec` holds. -/
theorem appendToGroup_pair_inv (P : String → SystemRecord → Prop)
    (d : List (String × List SystemRecord)) (key : String) (rec : SystemRecord)
    (hd : ∀ k g, (k, g) ∈ d → ∀ r ∈ g, P k r) (hrec : P key rec) :
    ∀ k g, (k, g) ∈ appendToGroup d key rec → ∀ r ∈ g, P k r := by
  induction d with
  | nil =>
    intro k g hkg r hr
    simp [appendToGroup] at hkg
    obtain ⟨hk, hg⟩ := hkg
    subst hk; subst hg
    rcases List.mem_singleton.mp hr with h
    exact h ▸ hrec
  | cons p rest ih =>
    obtain ⟨k₀, rs⟩ := p
    by_cases h : k₀ = key
    · subst h
      intro k g hkg r hr
      simp only [appendToGroup, if_pos rfl] at hkg
      rcases List.mem_cons.mp hkg with hkg | hkg
      · obtain ⟨hk, hg⟩ := Prod.mk.injEq .. ▸ hkg
        subst hk; subst hg
        rcases List.mem_append.mp hr with hr | hr
        · exact hd _ _ (List.mem_cons_self _ _) _ hr
        · exact (List.mem_singleton.mp hr) ▸ hrec
      · exact hd _ _ (List.mem_cons_of_mem _ hkg) _ hr
    · intro k g hkg r hr
      simp only [appendToGroup, if_neg h] at hkg
      rcases List.mem_cons.mp hkg with hkg | hkg
      · obtain ⟨hk, hg⟩ := Prod.mk.injEq .. ▸ hkg
        subst hk; subst hg
        exact hd _ _ (List.mem_cons_self _ _) _ hr
      · exact ih (fun k' g' hk' r' hr' =>
          hd k' g' (List.mem_cons_of_mem _ hk') r' hr') k g hkg r hr

/-- The grouping fold with an explicit accumulator. -/
def groupFold (st : ApiState)
    (transport : String → FetchOutcome (List RawAdvisory))
    (acc : List (String × List SystemRecord)) (systems : List RawSystem) :
    List (String × List SystemRecord) :=
  systems.foldl
    (fun groups system =>
      appendToGroup groups (recordOf st transport system).os_version
        (recordOf st transport system))
    acc

theorem get_system_status_data_eq_groupFold (st : ApiState)
    (transport : String → FetchOutcome (List RawAdvisory))
    (systems : List RawSystem) :
    get_system_status_data st transport systems =
      groupFold st transport [] systems := rfl

theorem sumLengths_groupFold (st : ApiState)
    (transport : String → FetchOutcome (List RawAdvisory))
    (systems : List RawSystem) (acc : List (String × List SystemRecord)) :
    sumLengths (groupFold st transport acc systems) =
      sumLengths acc + systems.length := by
  induction systems generalizing acc with
  | nil => simp [groupFold]
  | cons s rest ih =>
    simp only [groupFold, List.foldl_cons] at ih ⊢
    rw [ih, sumLengths_appendToGroup, List.length_cons]
    omega

theorem groupFold_pair_inv (st : ApiState)
    (transport : String → FetchOutcome (List RawAdvisory))
    (P : String → SystemRecord → Prop) (systems : List RawSystem)
    (acc : List (String × List SystemRecord))
    (hacc : ∀ k g, (k, g) ∈ acc → ∀ r ∈ g, P k r)
    (hP : ∀ s ∈ systems,
      P (recordOf st transport s).os_version (recordOf st transport s)) :
    ∀ k g, (k, g) ∈ groupFold st transport acc systems → ∀ r ∈ g, P k r := by
  induction systems generalizing acc with
  | nil => exact hacc
  | cons s rest ih =>
    simp only [groupFold, List.foldl_cons]
    exact ih _
      (appendToGroup_pair_inv P acc _ _ hacc (hP s (List.mem_cons_self _ _)))
      (fun s' hs' => hP s' (List.mem_cons_of_mem _ hs'))

theorem recMem_groupFold_of_recMem (st : ApiState)
    (transport : String → FetchOutcome (List RawAdvisory))
    (systems : List RawSystem) (acc : List (String × List SystemRecord))
    (r : SystemRecord) (h : recMem r acc) :
    recMem r (groupFold st transport acc systems) := by
  induction systems generalizing acc with
  | nil => exact h
  | cons s rest ih =>
    simp only [groupFold, List.foldl_cons] at ih ⊢
    exact ih _ ((recMem_appendToGroup _ _ _ _).mpr (Or.inl h))

theorem recMem_groupFold_of_mem (st : ApiState)
    (transport : String → FetchOutcome (List RawAdvisory))
    (systems : List RawSystem) (acc : List (String × List SystemRecord))
    (s : RawSystem) (hs : s ∈ systems) :
    recMem (recordOf st transport s) (groupFold st transport acc systems) := by
  induction systems generalizing acc with
  | nil => cases hs
  | cons s₀ rest ih =>
    simp only [groupFold, List.foldl_cons]
    rcases List.mem_cons.mp hs with h | h
    · subst h
      exact recMem_groupFold_of_recMem st transport rest _ _
        ((recMem_appendToGroup _ _ _ _).mpr (Or.inr rfl))
    · exact ih _ h

/-! ### Helper lemmas about the JSON-report dictionary -/

/-- Keys of the modelled dictionary, in insertion order. -/
def dictKeys (d : List (String × JsonSystemEntry)) : List String :=
  d.map fun p => p.1

theorem dictInsert_cons_eq (rest : List (String × JsonSystemEntry))
    (k' : String) (v' : JsonSystemEntry) (k : String) (v : JsonSystemEntry)
    (h : k' = k) : dictInsert ((k', v') :: rest) k v = (k, v) :: rest := by
  simp [dictInsert, h]

theorem dictInsert_cons_ne (rest : List (String × JsonSystemEntry))
    (k' : String) (v' : JsonSystemEntry) (k : String) (v : JsonSystemEntry)
    (h : ¬k' = k) :
    dictInsert ((k', v') :: rest) k v = (k', v') :: dictInsert rest k v := by
  simp [dictInsert, h]

theorem mem_dictKeys_dictInsert (d : List (String × JsonSystemEntry))
    (k : String) (v : JsonSystemEntry) (n : String) :
    n ∈ dictKeys (dictInsert d k v) ↔ n ∈ dictKeys d ∨ n = k := by
  induction d with
  | nil => simp [dictInsert, dictKeys]
  | cons p rest ih =>
    obtain ⟨k', v'⟩ := p
    by_cases h : k' = k
    · rw [dictInsert_cons_eq rest k' v' k v h]
      subst h
      simp only [dictKeys, List.map_cons, List.mem_cons]
      tauto
    · rw [dictInsert_cons_ne rest k' v' k v h]
      simp only [dictKeys, List.map_cons, List.mem_cons] at ih ⊢
      rw [ih]
      tauto

theorem nodup_dictKeys_dictInsert (d : List (String × JsonSystemEntry))
    (k : String) (v : JsonSystemEntry) (h : (dictKeys d).Nodup) :
    (dictKeys (dictInsert d k v)).Nodup := by
  induction d with
  | nil => simp [dictInsert, dictKeys]
  | cons p rest ih =>
    obtain ⟨k', v'⟩ := p
    simp only [dictKeys, List.map_cons, List.nodup_cons] at h
    by_cases hk : k' = k
    · rw [dictInsert_cons_eq rest k' v' k v hk]
      subst hk
      simpa [dictKeys, List.nodup_cons] using h
    · rw [dictInsert_cons_ne rest k' v' k v hk]
      simp only [dictKeys, List.map_cons, List.nodup_cons]
      refine ⟨fun hmem => ?_, ih h.2⟩
      rcases (mem_dictKeys_dictInsert rest k v k').mp hmem with hmem | hmem
      · exact h.1 hmem
      · exact hk hmem

theorem dictFind_dictInsert_self (d : List (String × JsonSystemEntry))
    (k : String) (v : JsonSystemEntry) :
    dictFind (dictInsert d k v) k = some v := by
  induction d with
  | nil => simp [dictInsert, dictFind]
  | cons p rest ih =>
    obtain ⟨k', v'⟩ := p
    by_cases h : k' = k
    · rw [dictInsert_cons_eq rest k' v' k v h]
      simp [dictFind]
    · rw [dictInsert_cons_ne rest k' v' k v h]
      simp only [dictFind] at ih ⊢
      rw [List.find?_cons_of_neg _ (by simpa using h)]
      exact ih

theorem dictFind_dictInsert_ne (d : List (String × JsonSystemEntry))
    (k : String) (v : JsonSystemEntry) (n : String) (hne : n ≠ k) :
    dictFind (dictInsert d k v) n = dictFind d n := by
  induction d with
  | nil =>
    simp only [dictInsert, dictFind, List.find?_nil, Option.map_none]
    rw [List.find?_cons_of_neg _ (by simpa using fun h => hne h.symm)]
    simp
  | cons p rest ih =>
    obtain ⟨k', v'⟩ := p
    by_cases h : k' = k
    · rw [dictInsert_cons_eq rest k' v' k v h]
      subst h
      simp only [dictFind]
      rw [List.find?_cons_of_neg _ (by simpa using fun h => hne h.symm),
        List.find?_cons_of_neg _ (by simpa using fun h => hne h.symm)]
    · rw [dictInsert_cons_ne rest k' v' k v h]
      simp only [dictFind] at ih ⊢
      by_cases hn : k' = n
      · subst hn
        rw [List.find?_cons_of_pos _ (by simp), List.find?_cons_of_pos _ (by simp)]
      · rw [List.find?_cons_of_neg _ (by simpa using hn),
          List.find?_cons_of_neg _ (by simpa using hn)]
        exact ih

theorem length_dictInsert_le (d : List (String × JsonSystemEntry))
    (k : String) (v : JsonSystemEntry) :
    (dictInsert d k v).length ≤ d.length + 1 := by
  induction d with
  | nil => simp [dictInsert]
  | cons p rest ih =>
    obtain ⟨k', v'⟩ := p
    by_cases h : k' = k
    · rw [dictInsert_cons_eq rest k' v' k v h]
      simp
    · rw [dictInsert_cons_ne rest k' v' k v h]
      simp only [List.length_cons]
      omega

theorem length_dictInsert_of_mem (d : List (String × JsonSystemEntry))
    (k : String) (v : JsonSystemEntry) (h : k ∈ dictKeys d) :
    (dictInsert d k v).length = d.length := by
  induction d with
  | nil => simp [dictKeys] at h
  | cons p rest ih =>
    obtain ⟨k', v'⟩ := p
    by_cases hk : k' = k
    · rw [dictInsert_cons_eq rest k' v' k v hk]
      simp
    · rw [dictInsert_cons_ne rest k' v' k v hk]
      simp only [List.length_cons]
      simp only [dictKeys, List.map_cons, List.mem_cons] at h
      rcases h with h | h
      · exact absurd h.symm hk
      · rw [ih h]

/-- The JSON-report fold with an explicit accumulator. -/
def jsonFold (acc : List (String × JsonSystemEntry))
    (systems_data : List SystemData) : List (String × JsonSystemEntry) :=
  systems_data.foldl
    (fun json_report system =>
      dictInsert json_report system.display_name (jsonEntryOf system))
    acc

theorem generate_json_report_eq_jsonFold (systems_data : List SystemData) :
    generate_json_report systems_data = jsonFold [] systems_data := rfl

theorem mem_dictKeys_jsonFold (sd : List SystemData)
    (acc : List (String × JsonSystemEntry)) (n : String) :
    n ∈ dictKeys (jsonFold acc sd) ↔
      n ∈ dictKeys acc ∨ n ∈ sd.map fun s => s.display_name := by
  induction sd generalizing acc with
  | nil => simp [jsonFold]
  | cons s rest ih =>
    simp only [jsonFold, List.foldl_cons] at ih ⊢
    rw [ih, mem_dictKeys_dictInsert]
    simp only [List.map_cons, List.mem_cons]
    tauto

theorem nodup_dictKeys_jsonFold (sd : List SystemData)
    (acc : List (String × JsonSystemEntry)) (h : (dictKeys acc).Nodup) :
    (dictKeys (jsonFold acc sd)).Nodup := by
  induction sd generalizing acc with
  | nil => exact h
  | cons s rest ih =>
    simp only [jsonFold, List.foldl_cons] at ih ⊢
    exact ih _ (nodup_dictKeys_dictInsert acc _ _ h)

theorem dictFind_jsonFold (sd : List SystemData)
    (acc : List (String × JsonSystemEntry)) (n : String) :
    dictFind (jsonFold acc sd) n =
      match sd.reverse.find? fun s => decide (s.display_name = n) with
      | some s => some (jsonEntryOf s)
      | none => dictFind acc n := by
  induction sd generalizing acc with
  | nil => simp [jsonFold]
  | cons s rest ih =>
    simp only [jsonFold, List.foldl_cons] at ih ⊢
    rw [ih, List.reverse_cons, List.find?_append]
    rcases hfind : rest.reverse.find? (fun s => decide (s.display_name = n))
      with _ | s'
    · rw [hfind]
      by_cases hs : s.display_name = n
      · subst hs
        simp [dictFind_dictInsert_self]
      · simp only [Option.none_or]
        rw [List.find?_singleton, if_neg (by simpa using hs)]
        exact dictFind_dictInsert_ne acc s.display_name (jsonEntryOf s) n
          fun h => hs h.symm
    · rw [hfind]
      simp

theorem length_jsonFold_le (sd : List SystemData)
    (acc : List (String × JsonSystemEntry)) :
    (jsonFold acc sd).length ≤ acc.length + sd.length := by
  induction sd generalizing acc with
  | nil => simp [jsonFold]
  | cons s rest ih =>
    simp only [jsonFold, List.foldl_cons, List.length_cons] at ih ⊢
    calc (jsonFold (dictInsert acc s.display_name (jsonEntryOf s)) rest).length
        ≤ (dictInsert acc s.display_name (jsonEntryOf s)).length + rest.length :=
          ih _
      _ ≤ acc.length + 1 + rest.length := by
          have := length_dictInsert_le acc s.display_name (jsonEntryOf s)
          omega
      _ = acc.length + (rest.length + 1) := by omega

theorem length_jsonFold_lt (sd : List SystemData)
    (acc : List (String × JsonSystemEntry))
    (h : ¬(sd.map fun s => s.display_name).Nodup ∨
      ∃ s ∈ sd, s.display_name ∈ dictKeys acc) :
    (jsonFold acc sd).length < acc.length + sd.length := by
  induction sd generalizing acc with
  | nil =>
    rcases h with h | ⟨s, hs, _⟩
    · exact absurd List.nodup_nil h
    · cases hs
  | cons s rest ih =>
    simp only [jsonFold, List.foldl_cons, List.length_cons] at ih ⊢
    have hle := length_dictInsert_le acc s.display_name (jsonEntryOf s)
    rcases h with h | ⟨s₀, hs₀, hkey⟩
    · simp only [List.map_cons, List.nodup_cons, not_and_or] at h
      rcases h with h | h
      · push_neg at h
        obtain ⟨s', hs', hname⟩ := List.mem_map.mp h
        have hkey' : s'.display_name ∈
            dictKeys (dictInsert acc s.display_name (jsonEntryOf s)) :=
          (mem_dictKeys_dictInsert acc _ _ _).mpr (Or.inr hname)
        have := ih _ (Or.inr ⟨s', hs', hkey'⟩)
        omega
      · have := ih (dictInsert acc s.display_name (jsonEntryOf s)) (Or.inl h)
        omega
    · rcases List.mem_cons.mp hs₀ with h₀ | h₀
      · subst h₀
        have heq := length_dictInsert_of_mem acc s₀.display_name
          (jsonEntryOf s₀) hkey
        have hfle := length_jsonFold_le rest
          (dictInsert acc s₀.display_name (jsonEntryOf s₀))
        simp only [jsonFold] at hfle
        omega
      · have hkey' : s₀.display_name ∈
            dictKeys (dictInsert acc s.display_name (jsonEntryOf s)) :=
          (mem_dictKeys_dictInsert acc _ _ _).mpr (Or.inl hkey)
        have := ih _ (Or.inr ⟨s₀, h₀, hkey'⟩)
        omega

/-! ### Concrete fixtures (the spec's §8 test vector and variants) -/

/-- An API state holding a (truthy) bearer token. -/
def demoState : ApiState := { access_token := some "demo-token" }

/-- Advisory transport of the §8 vector: two advisories for system `a`,
none for any other system. -/
def demoTransport : String → FetchOutcome (List RawAdvisory) := fun url =>
  if url = advisoriesUrl "a" then
    FetchOutcome.response 200 (some ["RHSA-2024:0001", "RHSA-2024:0002"])
  else FetchOutcome.response 200 (some [])

/-- Advisory transport whose call for system `a` raises a transport error. -/
def demoFailTransport : String → FetchOutcome (List RawAdvisory) := fun url =>
  if url = advisoriesUrl "a" then FetchOutcome.transportError "connection refused"
  else FetchOutcome.response 200 (some [])

/-- The §8 inventory: Host1 on RHEL 8, Host2 on RHEL 9. -/
def demoSystems : List RawSystem :=
  [{ id := some "a", attributes := some { display_name := some "Host1", os := some "RHEL 8" } },
   { id := some "b", attributes := some { display_name := some "Host2", os := some "RHEL 9" } }]

/-- Inventory whose two OS strings differ only in letter case. -/
def demoCaseSystems : List RawSystem :=
  [{ id := some "a", attributes := some { display_name := some "Host1", os := some "RHEL 8" } },
   { id := some "b", attributes := some { display_name := some "Host2", os := some "rhel 8" } }]

/-- JSON-report input with one system and one advisory. -/
def demoSystemsData : List SystemData :=
  [{ system_id := "a", display_name := "Host1",
     advisories := [{ id := "RHSA-2024:0001", synopsis := "important fix" }] }]

/-- JSON-report input whose two systems share a display name. -/
def demoDupData : List SystemData :=
  [{ system_id := "a", display_name := "Host1",
     advisories := [{ id := "RHSA-2024:0001", synopsis := "important fix" }] },
   { system_id := "b", display_name := "Host1", advisories := [] }]

/-! ### The claims -/

/-- C1: every system record constructed by the aggregation pipeline has
`advisory_count` equal to the length of the advisory list returned by the
advisory fetch for that system's id in the same run, and
`has_installable_advisories` is true iff `advisory_count > 0`. -/
theorem C1_record_invariant (st : ApiState)
    (transport : String → FetchOutcome (List RawAdvisory))
    (systems : List RawSystem) (k : String) (g : List SystemRecord)
    (r : SystemRecord)
    (hg : (k, g) ∈ get_system_status_data st transport systems) (hr : r ∈ g) :
    r.advisory_count =
      (get_system_advisories st transport r.system_id).1.length ∧
    (r.has_installable_advisories = true ↔ 0 < r.advisory_count) := by
  rw [get_system_status_data_eq_groupFold] at hg
  refine groupFold_pair_inv st transport
    (fun _ r =>
      r.advisory_count =
        (get_system_advisories st transport r.system_id).1.length ∧
      (r.has_installable_advisories = true ↔ 0 < r.advisory_count))
    systems [] (by simp) (fun s _ => ?_) k g hg r hr
  constructor
  · rfl
  · simp [recordOf]

/-- C1 witness: in the §8 run, Host1's record carries `advisory_count = 2`,
the length of the list fetched for system `a`, and the flag is set. -/
theorem C1_record_invariant_witness :
    ({ system_id := "a", display_name := "Host1", os_version := "RHEL 8",
       has_installable_advisories := true, advisory_count := 2 } :
        SystemRecord).advisory_count =
      (get_system_advisories demoState demoTransport "a").1.length ∧
    (({ system_id := "a", display_name := "Host1", os_version := "RHEL 8",
        has_installable_advisories := true, advisory_count := 2 } :
          SystemRecord).has_installable_advisories = true ↔
      0 < ({ system_id := "a", display_name := "Host1", os_version := "RHEL 8",
             has_installable_advisories := true, advisory_count := 2 } :
              SystemRecord).advisory_count) :=
  C1_record_invariant demoState demoTransport demoSystems "RHEL 8"
    [{ system_id := "a", display_name := "Host1", os_version := "RHEL 8",
       has_installable_advisories := true, advisory_count := 2 }]
    { system_id := "a", display_name := "Host1", os_version := "RHEL 8",
      has_installable_advisories := true, advisory_count := 2 }
    (by decide) (by decide)

/-- C2: aggregation of an inventory with `N` entries yields groups whose
sizes sum to `N` — no entry is dropped or duplicated, whatever the
per-system advisory transport does (including failing). -/
theorem C2_total_count (st : ApiState)
    (transport : String → FetchOutcome (List RawAdvisory))
    (systems : List RawSystem) :
    sumLengths (get_system_status_data st transport systems) =
      systems.length := by
  rw [get_system_status_data_eq_groupFold]
  have h := sumLengths_groupFold st transport systems []
  simpa [sumLengths] using h

/-- A failed advisory fetch (transport error or 4xx/5xx, both caught by the
`except` arm) yields the empty advisory list. -/
theorem get_system_advisories_of_failure (st : ApiState)
    (transport : String → FetchOutcome (List RawAdvisory))
    (inventory_id : String)
    (h : isFetchFailure (transport (advisoriesUrl inventory_id)) = true) :
    (get_system_advisories st transport inventory_id).1 = [] := by
  unfold get_system_advisories
  by_cases ht : tokenFalsy st.access_token
  · simp [ht]
  · rcases hout : transport (advisoriesUrl inventory_id) with msg | ⟨status, data⟩
    · simp [ht, hout]
    · rw [hout] at h
      simp only [isFetchFailure] at h
      simp [ht, hout, h]

/-- C3: a transport or HTTP-status error on the advisory fetch for one system
does not abort aggregation — the affected system's record is still produced,
with `advisory_count = 0` and the flag false, and the output still holds one
record per inventory entry. -/
theorem C3_partial_failure (st : ApiState)
    (transport : String → FetchOutcome (List RawAdvisory))
    (systems : List RawSystem) (s : RawSystem) (hs : s ∈ systems)
    (hfail : isFetchFailure (transport (advisoriesUrl (s.id.getD "No ID"))) =
      true) :
    (recordOf st transport s).advisory_count = 0 ∧
    (recordOf st transport s).has_installable_advisories = false ∧
    recMem (recordOf st transport s)
      (get_system_status_data st transport systems) ∧
    sumLengths (get_system_status_data st transport systems) =
      systems.length := by
  have hempty := get_system_advisories_of_failure st transport
    (s.id.getD "No ID") hfail
  refine ⟨?_, ?_, ?_, C2_total_count st transport systems⟩
  · show (get_system_advisories st transport (s.id.getD "No ID")).1.length = 0
    rw [hempty]
    rfl
  · show decide ((get_system_advisories st transport
      (s.id.getD "No ID")).1.length > 0) = false
    rw [hempty]
    rfl
  · rw [get_system_status_data_eq_groupFold]
    exact recMem_groupFold_of_mem st transport systems [] s hs

/-- C3 witness: with the transport erroring for system `a`, Host1's record is
produced with zero advisories and both inventory entries are still grouped. -/
theorem C3_partial_failure_witness :
    (recordOf demoState demoFailTransport
        { id := some "a",
          attributes := some { display_name := some "Host1",
                               os := some "RHEL 8" } }).advisory_count = 0 ∧
    (recordOf demoState demoFailTransport
        { id := some "a",
          attributes := some { display_name := some "Host1",
                               os := some "RHEL 8" } }).has_installable_advisories
      = false ∧
    recMem (recordOf demoState demoFailTransport
        { id := some "a",
          attributes := some { display_name := some "Host1",
                               os := some "RHEL 8" } })
      (get_system_status_data demoState demoFailTransport demoSystems) ∧
    sumLengths (get_system_status_data demoState demoFailTransport demoSystems)
      = demoSystems.length :=
  C3_partial_failure demoState demoFailTransport demoSystems
    { id := some "a",
      attributes := some { display_name := some "Host1", os := some "RHEL 8" } }
    (by decide) (by decide)

/-- C4 counterexample: with a previously held token and a 2xx token response
whose body lacks the `access_token` field, the refresh does return a failure
value (`None`) but does NOT leave the held token unchanged — it overwrites it
with `None` (`self.access_token = token_data.get('access_token')`). -/
theorem C4_counterexample :
    (get_oauth_token { access_token := some "old-token" }
        (TokenOutcome.response 200 none)).1 = none ∧
    (get_oauth_token { access_token := some "old-token" }
        (TokenOutcome.response 200 none)).2.access_token ≠ some "old-token" := by
  refine ⟨rfl, ?_⟩
  simp [get_oauth_token, isErrorStatus]

/-- C4 amended: on a transport error or an HTTP error status (4xx/5xx, the
statuses `raise_for_status` raises for), the refresh returns `None` and the
held token is unchanged; on any other response, the held token is replaced
wholesale by the body's `access_token` field and that value is returned — so
a passing status whose body lacks the field returns a failure value (`None`)
but clears the held token instead of preserving it. -/
theorem C4_token_refresh (st : ApiState) (outcome : TokenOutcome) :
    ((∃ msg, outcome = TokenOutcome.transportError msg) →
      get_oauth_token st outcome = (none, st)) ∧
    (∀ status tok, outcome = TokenOutcome.response status tok →
      isErrorStatus status = true → get_oauth_token st outcome = (none, st)) ∧
    (∀ status tok, outcome = TokenOutcome.response status tok →
      isErrorStatus status = false →
      (get_oauth_token st outcome).1 = tok ∧
      (get_oauth_token st outcome).2.access_token = tok) := by
  refine ⟨?_, ?_, ?_⟩
  · rintro ⟨msg, rfl⟩
    rfl
  · rintro status tok rfl herr
    simp [get_oauth_token, herr]
  · rintro status tok rfl herr
    simp [get_oauth_token, herr]

/-- C4 witness: a 200 response carrying a token replaces the held token and
returns it. -/
theorem C4_token_refresh_witness :
    (get_oauth_token { access_token := some "old-token" }
        (TokenOutcome.response 200 (some "new-token"))).1 = some "new-token" ∧
    (get_oauth_token { access_token := some "old-token" }
        (TokenOutcome.response 200 (some "new-token"))).2.access_token =
      some "new-token" :=
  (C4_token_refresh { access_token := some "old-token" }
      (TokenOutcome.response 200 (some "new-token"))).2.2
    200 (some "new-token") rfl (by decide)

/-- C5: the overall percentage is 0 when the total is 0 and otherwise equals
(systems with advisories / total) × 100, at exact rational value; the same
formula with the same zero guard holds for every OS-version group. -/
theorem C5_percentages (d : List (String × List SystemRecord)) :
    (total_systems d = 0 → overall_percentage d = 0) ∧
    (total_systems d ≠ 0 →
      overall_percentage d =
        (total_with_advisories d : ℚ) / (total_systems d : ℚ) * 100) ∧
    ∀ p ∈ d,
      (p.2.length = 0 → group_percentage p.2 = 0) ∧
      (p.2.length ≠ 0 →
        group_percentage p.2 =
          (group_with_advisories p.2 : ℚ) / (p.2.length : ℚ) * 100) := by
  refine ⟨fun h => ?_, fun h => ?_, fun p _ => ⟨fun h => ?_, fun h => ?_⟩⟩
  · simp [overall_percentage, h]
  · rw [overall_percentage, if_pos (Nat.pos_of_ne_zero h)]
  · simp [group_percentage, h]
  · rw [group_percentage, if_pos (Nat.pos_of_ne_zero h)]

/-- C5 witness: on the §8 run (one of two systems has advisories) the overall
percentage evaluates to 50. -/
theorem C5_percentages_witness :
    overall_percentage
      (get_system_status_data demoState demoTransport demoSystems) = 50 := by
  have h := (C5_percentages
    (get_system_status_data demoState demoTransport demoSystems)).2.1
    (by decide)
  rw [h,
    show total_with_advisories
      (get_system_status_data demoState demoTransport demoSystems) = 1
      from by decide,
    show total_systems
      (get_system_status_data demoState demoTransport demoSystems) = 2
      from by decide]
  norm_num

/-- C6: records land in the same group exactly when their `os_version`
strings are equal as strings — the group key IS the record's `os_version`,
with no normalization, so case-differing OS strings yield distinct keys. -/
theorem C6_exact_grouping (st : ApiState)
    (transport : String → FetchOutcome (List RawAdvisory))
    (systems : List RawSystem)
    (k₁ : String) (g₁ : List SystemRecord) (r₁ : SystemRecord)
    (k₂ : String) (g₂ : List SystemRecord) (r₂ : SystemRecord)
    (h₁ : (k₁, g₁) ∈ get_system_status_data st transport systems)
    (hr₁ : r₁ ∈ g₁)
    (h₂ : (k₂, g₂) ∈ get_system_status_data st transport systems)
    (hr₂ : r₂ ∈ g₂) :
    k₁ = r₁.os_version ∧ k₂ = r₂.os_version ∧
    (k₁ = k₂ ↔ r₁.os_version = r₂.os_version) := by
  rw [get_system_status_data_eq_groupFold] at h₁ h₂
  have key := groupFold_pair_inv st transport
    (fun k r => k = r.os_version) systems [] (by simp) (fun s _ => rfl)
  have e₁ := key k₁ g₁ h₁ r₁ hr₁
  have e₂ := key k₂ g₂ h₂ r₂ hr₂
  exact ⟨e₁, e₂, by rw [e₁, e₂]⟩

/-- C6 witness: `"RHEL 8"` and `"rhel 8"` inventory entries produce records
in two groups whose keys are the two distinct strings. -/
theorem C6_exact_grouping_witness :
    "RHEL 8" =
      ({ system_id := "a", display_name := "Host1", os_version := "RHEL 8",
         has_installable_advisories := true, advisory_count := 2 } :
           SystemRecord).os_version ∧
    "rhel 8" =
      ({ system_id := "b", display_name := "Host2", os_version := "rhel 8",
         has_installable_advisories := false, advisory_count := 0 } :
           SystemRecord).os_version ∧
    (("RHEL 8" : String) = "rhel 8" ↔
      ({ system_id := "a", display_name := "Host1", os_version := "RHEL 8",
         has_installable_advisories := true, advisory_count := 2 } :
          SystemRecord).os_version =
        ({ system_id := "b", display_name := "Host2", os_version := "rhel 8",
           has_installable_advisories := false, advisory_count := 0 } :
            SystemRecord).os_version) :=
  C6_exact_grouping demoState demoTransport demoCaseSystems
    "RHEL 8"
    [{ system_id := "a", display_name := "Host1", os_version := "RHEL 8",
       has_installable_advisories := true, advisory_count := 2 }]
    { system_id := "a", display_name := "Host1", os_version := "RHEL 8",
      has_installable_advisories := true, advisory_count := 2 }
    "rhel 8"
    [{ system_id := "b", display_name := "Host2", os_version := "rhel 8",
       has_installable_advisories := false, advisory_count := 0 }]
    { system_id := "b", display_name := "Host2", os_version := "rhel 8",
      has_installable_advisories := false, advisory_count := 0 }
    (by decide) (by decide) (by decide) (by decide)

/-- C7: with a null held token, both fetch operations return the empty
result and issue no request at all (their request log is empty). -/
theorem C7_fail_fast (st : ApiState)
    (systems_transport : String → FetchOutcome (List RawSystem))
    (advisories_transport : String → FetchOutcome (List RawAdvisory))
    (inventory_id : String) (h : st.access_token = none) :
    get_patch_systems st systems_transport = ([], []) ∧
    get_system_advisories st advisories_transport inventory_id = ([], []) := by
  obtain ⟨tok⟩ := st
  cases h
  exact ⟨rfl, rfl⟩

/-- C7 witness: the tokenless state answers both fetches with no request,
whatever the transport would have returned. -/
theorem C7_fail_fast_witness :
    get_patch_systems { access_token := none }
        (fun _ => FetchOutcome.response 200 (some demoSystems)) = ([], []) ∧
    get_system_advisories { access_token := none }
        (fun _ => FetchOutcome.response 200 (some ["RHSA-2024:0001"])) "a" =
      ([], []) :=
  C7_fail_fast { access_token := none } _ _ "a" rfl

/-- Every pair of `dictInsert d k v` was already in `d` or is `(k, v)`. -/
theorem mem_dictInsert (d : List (String × JsonSystemEntry)) (k : String)
    (v : JsonSystemEntry) (p : String × JsonSystemEntry)
    (h : p ∈ dictInsert d k v) : p ∈ d ∨ p = (k, v) := by
  induction d with
  | nil =>
    simp [dictInsert] at h
    exact Or.inr h
  | cons q rest ih =>
    obtain ⟨k', v'⟩ := q
    by_cases hk : k' = k
    · rw [dictInsert_cons_eq rest k' v' k v hk] at h
      rcases List.mem_cons.mp h with h | h
      · exact Or.inr h
      · exact Or.inl (List.mem_cons_of_mem _ h)
    · rw [dictInsert_cons_ne rest k' v' k v hk] at h
      rcases List.mem_cons.mp h with h | h
      · exact Or.inl (h ▸ List.mem_cons_self _ _)
      · rcases ih h with h | h
        · exact Or.inl (List.mem_cons_of_mem _ h)
        · exact Or.inr h

/-- Every pair of the JSON-report fold comes from the accumulator or from
one of the folded systems. -/
theorem mem_jsonFold (sd : List SystemData)
    (acc : List (String × JsonSystemEntry)) (p : String × JsonSystemEntry)
    (h : p ∈ jsonFold acc sd) :
    p ∈ acc ∨ ∃ s ∈ sd, p = (s.display_name, jsonEntryOf s) := by
  induction sd generalizing acc with
  | nil => exact Or.inl h
  | cons s rest ih =>
    simp only [jsonFold, List.foldl_cons] at ih h
    rcases ih _ h with h' | ⟨s', hs', hp⟩
    · rcases mem_dictInsert acc s.display_name (jsonEntryOf s) p h' with h'' | h''
      · exact Or.inl h''
      · exact Or.inr ⟨s, List.mem_cons_self _ _, h''⟩
    · exact Or.inr ⟨s', List.mem_cons_of_mem _ hs', hp⟩

/-- C8: in the generated JSON report, every system entry's `advisory_count`
equals the length of that same entry's `advisories` array, so a parse of the
report reproduces `advisory_count = length(advisories)` for every entry. -/
theorem C8_json_count (systems_data : List SystemData) (n : String)
    (e : JsonSystemEntry) (h : (n, e) ∈ generate_json_report systems_data) :
    e.advisory_count = e.advisories.length := by
  rw [generate_json_report_eq_jsonFold] at h
  rcases mem_jsonFold systems_data [] (n, e) h with h' | ⟨s, _, hp⟩
  · cases h'
  · have he : e = jsonEntryOf s := congrArg Prod.snd hp
    subst he
    rfl

/-- C8 witness: the single-system report entry carries count 1 for its
one-element advisories array. -/
theorem C8_json_count_witness :
    ({ system_id := "a", advisory_count := 1,
       advisories := [{ advisory_id := "RHSA-2024:0001",
                        synopsis := "important fix" }] } :
        JsonSystemEntry).advisory_count =
      ({ system_id := "a", advisory_count := 1,
         advisories := [{ advisory_id := "RHSA-2024:0001",
                          synopsis := "important fix" }] } :
          JsonSystemEntry).advisories.length :=
  C8_json_count demoSystemsData "Host1"
    { system_id := "a", advisory_count := 1,
      advisories := [{ advisory_id := "RHSA-2024:0001",
                       synopsis := "important fix" }] }
    (by decide)

set_option maxRecDepth 4000 in
/-- C9 counterexample: the claim says the ID column holds the truncated
system NAME; on a record whose name and id differ, the code's row holds the
(truncated) system id instead, not the name. -/
theorem C9_counterexample :
    (pdfTableRow
        { system_id := "abc123", display_name := "Host1-production-server",
          os_version := "RHEL 8", has_installable_advisories := true,
          advisory_count := 2 })[1]? ≠
      some (claimIdCell
        { system_id := "abc123", display_name := "Host1-production-server",
          os_version := "RHEL 8", has_installable_advisories := true,
          advisory_count := 2 }) := by
  decide

/-- C9 amended: in every PDF table row, the ID column (index 1) holds the
system ID truncated to its first 20 characters with an ellipsis appended
when it exceeds 20 characters, and the full system ID unchanged otherwise;
the system name occupies the first column untruncated. -/
theorem C9_id_column (r : SystemRecord) :
    (r.system_id.length ≤ 20 → (pdfTableRow r)[1]? = some r.system_id) ∧
    (r.system_id.length > 20 →
      (pdfTableRow r)[1]? = some (r.system_id.take 20 ++ "...")) ∧
    (pdfTableRow r)[0]? = some r.display_name := by
  refine ⟨fun h => ?_, fun h => ?_, rfl⟩
  · simp [pdfTableRow, Nat.not_lt.mpr h]
  · simp [pdfTableRow, h]

/-- C9 witness: a 6-character system id appears unmodified in the ID column;
the name sits in the first column. -/
theorem C9_id_column_witness :
    (pdfTableRow
        { system_id := "abc123", display_name := "Host1-production-server",
          os_version := "RHEL 8", has_installable_advisories := true,
          advisory_count := 2 })[1]? = some "abc123" ∧
    (pdfTableRow
        { system_id := "abc123", display_name := "Host1-production-server",
          os_version := "RHEL 8", has_installable_advisories := true,
          advisory_count := 2 })[0]? = some "Host1-production-server" :=
  ⟨(C9_id_column
      { system_id := "abc123", display_name := "Host1-production-server",
        os_version := "RHEL 8", has_installable_advisories := true,
        advisory_count := 2 }).1 (by decide),
   (C9_id_column
      { system_id := "abc123", display_name := "Host1-production-server",
        os_version := "RHEL 8", has_installable_advisories := true,
        advisory_count := 2 }).2.2⟩

/-- C10: the JSON report is keyed by `display_name`: its keys are exactly the
distinct display names (each once), a lookup returns the entry of the LAST
input record bearing that name, the report never has more entries than
records, and strictly fewer as soon as two records share a name. -/
theorem C10_last_wins (sd : List SystemData) :
    (dictKeys (generate_json_report sd)).Nodup ∧
    (∀ n, n ∈ dictKeys (generate_json_report sd) ↔
      n ∈ sd.map fun s => s.display_name) ∧
    (∀ n, dictFind (generate_json_report sd) n =
      (sd.reverse.find? fun s => decide (s.display_name = n)).map
        jsonEntryOf) ∧
    (generate_json_report sd).length ≤ sd.length ∧
    (¬(sd.map fun s => s.display_name).Nodup →
      (generate_json_report sd).length < sd.length) := by
  refine ⟨?_, fun n => ?_, fun n => ?_, ?_, fun h => ?_⟩
  · rw [generate_json_report_eq_jsonFold]
    exact nodup_dictKeys_jsonFold sd [] (by simp [dictKeys])
  · rw [generate_json_report_eq_jsonFold, mem_dictKeys_jsonFold]
    simp [dictKeys]
  · rw [generate_json_report_eq_jsonFold, dictFind_jsonFold]
    rcases hf : sd.reverse.find? fun s => decide (s.display_name = n) with _ | s
    · rw [hf]
      simp [dictFind]
    · rw [hf]
      simp
  · rw [generate_json_report_eq_jsonFold]
    simpa using length_jsonFold_le sd []
  · rw [generate_json_report_eq_jsonFold]
    simpa using length_jsonFold_lt sd [] (Or.inl h)

/-- C10 witness: two records sharing the display name `Host1` collapse to a
single report entry — fewer entries than records. -/
theorem C10_last_wins_witness :
    (generate_json_report demoDupData).length < demoDupData.length :=
  (C10_last_wins demoDupData).2.2.2.2 (by decide)
